import Mathlib

/-!
Verification of the memory and orchestration core of the stealth-ai-ops-assistant
repository against its natural-language specification.

The JavaScript sources are shallowly embedded as executable Lean functions:

* `src/backend/memory/feedbackHandler.js` — feedback store and pattern learner
  (`storeFeedback`, `getFeedbackStats`, `getFeedbackPatterns`, the edit/rejection
  analyzers);
* `src/backend/routes/fetchHarvest.js` (summarize router half) — the request
  orchestrator `processWithAI` with its retry loop and regex fallback extraction;
* the context store (`src/unnamed/part_005`) — client cache, name extraction,
  `getRelevantClientContext`, `createClient`, `pruneCache`.

Modelling conventions, used consistently below:

* timestamps are naturals, in milliseconds since the epoch (JS `Date.now()` /
  ISO-8601 strings are identified with their millisecond value; an ISO date
  string `YYYY-MM-DD` is identified with its day index `ms / 86400000`);
* JS floating-point arithmetic on rates and averages is modelled by exact
  rational arithmetic (`Rat`);
* a nullable JS string is `Option String`, and JS truthiness of a string is
  "present and non-empty";
* the Supabase relational store is a record of in-memory tables; inserts append
  and succeed (the happy path of the store), `.single()` succeeds exactly when
  the query matches exactly one row, and the `clients` table enforces its
  unique-name constraint by failing an insert with Postgres error code 23505;
* the external model endpoint is an oracle `Nat → Except String String` giving
  the outcome of each attempt, and `JSON.parse` is an oracle
  `String → Option JVal`;
* `await`ed sleeps are recorded in a trace rather than executed, and functions
  additionally return counters of the store/cache operations they performed so
  that frame conditions ("does not touch the store") are statable.
-/

namespace StealthOps

/-- Milliseconds timestamp, the model of `Date.now()` and ISO date strings. -/
abbrev Timestamp := Nat

/-- Truthiness of a nullable JS string: `null`/`undefined`/`""` are falsy. -/
def jsFalsyStr : Option String → Bool
  | none => true
  | some s => s = ""

/-! ## Generic string helpers mirroring JS string/regex primitives -/

/-- First index (if any) at which `needle` occurs as a contiguous sublist of
`hay`; the model of `String.prototype.indexOf` on character lists. -/
def findSubIdx (needle : List Char) : List Char → Option Nat
  | [] => if needle = [] then some 0 else none
  | c :: rest =>
    if needle.isPrefixOf (c :: rest) then some 0
    else (findSubIdx needle rest).map (· + 1)

/-- Whether `needle` occurs inside `hay`; the model of `String.prototype.includes`. -/
def containsSub (hay needle : String) : Bool :=
  (findSubIdx needle.data hay.data).isSome

/-- ASCII lowercasing, the model of `String.prototype.toLowerCase` (the texts
the sources compare are ASCII). -/
def lowerAscii (s : String) : String := String.mk (s.data.map Char.toLower)

/-- Case-insensitive containment, the model of
`hay.toLowerCase().includes(needle.toLowerCase())`. -/
def containsCI (hay needle : String) : Bool :=
  containsSub (lowerAscii hay) (lowerAscii needle)

mutual

/-- Accumulating worker for `jsSplitRuns`: currently inside a token whose
characters (reversed) are `acc`. -/
def splitRunsTok (p : Char → Bool) : List Char → List Char → List String
  | [], acc => [String.mk acc.reverse]
  | c :: rest, acc =>
    if p c then String.mk acc.reverse :: splitRunsSep p rest
    else splitRunsTok p rest (c :: acc)

/-- Worker for `jsSplitRuns`: currently inside a separator run. -/
def splitRunsSep (p : Char → Bool) : List Char → List String
  | [] => [""]
  | c :: rest => if p c then splitRunsSep p rest else splitRunsTok p rest [c]

end

/-- The model of JS `String.prototype.split` on a one-character-class regex with
`+` (e.g. `/\s+/`, `/[.!?]+/`): splits at every maximal run of characters
satisfying `p`, keeping the empty fragments a leading or trailing run produces. -/
def jsSplitRuns (p : Char → Bool) (s : String) : List String :=
  splitRunsTok p s.data []

/-- JS `String.prototype.trim` (the sources only ever trim ASCII whitespace):
drop whitespace from both ends. -/
def jsTrim (s : String) : String :=
  String.mk
    (((s.data.dropWhile Char.isWhitespace).reverse.dropWhile
      Char.isWhitespace).reverse)

/-- Fuelled worker for `jsSplitOnStr`; `fuel` bounds the character count left
to scan (each step consumes at least one character when `sep` is non-empty). -/
def splitOnStrAux (sep : List Char) : Nat → List Char → List Char → List String
  | 0, l, acc => [String.mk (acc.reverse ++ l)]
  | _ + 1, [], acc => [String.mk acc.reverse]
  | fuel + 1, c :: rest, acc =>
    if sep.isPrefixOf (c :: rest) then
      String.mk acc.reverse ::
        splitOnStrAux sep fuel ((c :: rest).drop sep.length) []
    else splitOnStrAux sep fuel rest (c :: acc)

/-- The model of JS `String.prototype.split` on a plain non-empty separator
string (the sources split on `"\n"` and `" to "`). -/
def jsSplitOnStr (sep : String) (s : String) : List String :=
  if sep.data = [] then [s]
  else splitOnStrAux sep.data (s.data.length + 1) s.data []

/-- Stable insertion of `x` into a list sorted by `le`; `x` goes in front of the
first element it compares `le` to, so earlier elements precede ties. -/
def insertLe (le : α → α → Bool) (x : α) : List α → List α
  | [] => [x]
  | y :: ys => if le x y then x :: y :: ys else y :: insertLe le x ys

/-- Stable sort by the boolean comparison `le`; the model of JS
`Array.prototype.sort` with a consistent comparator (stable per the spec of
modern engines) and of a SQL `ORDER BY`. -/
def sortLe (le : α → α → Bool) : List α → List α
  | [] => []
  | x :: xs => insertLe le x (sortLe le xs)

/-- Association-list increment preserving first-insertion key order; the model
of `obj[k] = (obj[k] || 0) + 1` on a plain JS object. -/
def incrAssoc (l : List (String × Nat)) (k : String) : List (String × Nat) :=
  if l.any (fun p => p.1 = k) then
    l.map (fun p => if p.1 = k then (p.1, p.2 + 1) else p)
  else l ++ [(k, 1)]

/-- Association-list increment with natural-number keys (day buckets). -/
def incrAssocNat (l : List (Nat × Nat)) (k : Nat) : List (Nat × Nat) :=
  if l.any (fun p => p.1 = k) then
    l.map (fun p => if p.1 = k then (p.1, p.2 + 1) else p)
  else l ++ [(k, 1)]

/-! ## Context store (`src/unnamed/part_005`)

The module-level `shortTermCache` with its `clients` / `projects` `Map`s is
modelled as explicit state; a JS `Map` is an insertion-ordered association
list with unique keys (`mapSet` updates in place or appends). -/

/-- Cache TTL, 5 minutes in milliseconds (`CACHE_TTL`). -/
def CACHE_TTL : Nat := 5 * 60 * 1000

/-- Maximum resident entries per cache pool (`MAX_CACHE_SIZE`). -/
def MAX_CACHE_SIZE : Nat := 100

/-- A row of the `clients` table / a value of the clients cache pool.
`last_mentioned` and `updated_at` are nullable timestamps (the recency metadata
the resolver bumps); `profile` is the free-form attribute blob. -/
structure Client where
  id : String
  name : String
  profile : List (String × String)
  last_mentioned : Option Timestamp
  updated_at : Option Timestamp
  created_at : Timestamp
deriving Repr, DecidableEq

/-- A row of the `projects` table / projects cache pool (only the fields the
cache logic reads). -/
structure Project where
  id : String
  client_id : String
  updated_at : Option Timestamp
deriving Repr, DecidableEq

/-- Insertion-ordered map from ids to `α`, the model of a JS `Map`. -/
abbrev JsMap (α : Type) := List (String × α)

/-- `Map.prototype.set`: update in place when the key is present, else append. -/
def mapSet (m : JsMap α) (k : String) (v : α) : JsMap α :=
  if m.any (fun p => p.1 = k) then
    m.map (fun p => if p.1 = k then (k, v) else p)
  else m ++ [(k, v)]

/-- `Map.prototype.get` (as an `Option`). -/
def mapGet (m : JsMap α) (k : String) : Option α :=
  (m.find? (fun p => p.1 = k)).map (fun p => p.2)

/-- `Map.prototype.delete`. -/
def mapDelete (m : JsMap α) (k : String) : JsMap α :=
  m.filter (fun p => p.1 ≠ k)

/-- The module-level `shortTermCache` object. -/
structure ShortTermCache where
  clients : JsMap Client
  lastUpdated : Timestamp
  projects : JsMap Project
  projectsLastUpdated : Timestamp
deriving Repr, DecidableEq

/-- Sort key used when pruning the clients pool:
`new Date(entry.last_mentioned || 0)` — an absent `last_mentioned` sorts as the
epoch, i.e. oldest. -/
def clientDateVal (c : Client) : Nat := c.last_mentioned.getD 0

/-- Sort key used when pruning the projects pool (`updated_at || 0`). -/
def projectDateVal (p : Project) : Nat := p.updated_at.getD 0

/-- One pool's half of `pruneCache`: when over `MAX_CACHE_SIZE`, sort the
entries by the date key ascending (stably, as `Array.prototype.sort`) and
delete the oldest entries until exactly `MAX_CACHE_SIZE` remain. -/
def prunePool (key : α → Nat) (m : JsMap α) : JsMap α :=
  if m.length > MAX_CACHE_SIZE then
    let sorted := sortLe (fun a b => key a.2 ≤ key b.2) m
    let entriesToRemove := sorted.take (sorted.length - MAX_CACHE_SIZE)
    entriesToRemove.foldl (fun acc p => mapDelete acc p.1) m
  else m

/-- `contextStore.pruneCache` (lines 445–495): prune both pools. -/
def pruneCache (cs : ShortTermCache) : ShortTermCache :=
  { cs with
    clients := prunePool clientDateVal cs.clients
    projects := prunePool projectDateVal cs.projects }

/-- `updateClientCache` (lines 623–638): merge a batch of clients fetched from
the database into the cache, refresh the pool-wide `lastUpdated` stamp, and
prune when over capacity. -/
def updateClientCache (clients : List Client) (cs : ShortTermCache)
    (now : Timestamp) : ShortTermCache :=
  if clients = [] then cs
  else
    let m := clients.foldl
      (fun m c => if c.id ≠ "" then mapSet m c.id c else m) cs.clients
    let cs1 : ShortTermCache := { cs with clients := m, lastUpdated := now }
    if cs1.clients.length > MAX_CACHE_SIZE then pruneCache cs1 else cs1

/-- `isCacheStale` (lines 615–617). -/
def isCacheStale (cs : ShortTermCache) (now : Timestamp) : Bool :=
  CACHE_TTL ≤ now - cs.lastUpdated

/-- `getCachedClients` (lines 599–609): all cached clients (in insertion order)
whose name occurs in the requested name list. -/
def getCachedClients (clientNames : List String) (cs : ShortTermCache) :
    List Client :=
  (cs.clients.map (fun p => p.2)).filter (fun c => clientNames.contains c.name)

/-! ### Name extraction (`extractNamesFromText`, `isCommonWord`) -/

/-- The fixed stop-word list of `isCommonWord` (lines 581–592), in source
order. -/
def commonWords : List String :=
  ["The", "A", "An", "And", "But", "Or", "For", "Nor", "As", "At",
   "By", "For", "From", "In", "Into", "Near", "Of", "On", "To", "With",
   "Monday", "Tuesday", "Wednesday", "Thursday", "Friday", "Saturday", "Sunday",
   "January", "February", "March", "April", "May", "June", "July",
   "August", "September", "October", "November", "December",
   "I", "You", "He", "She", "It", "We", "They"]

/-- `isCommonWord` (lines 581–592). -/
def isCommonWord (word : String) : Bool := commonWords.contains word

/-- A regex `\w` word character: ASCII letter, digit or underscore. -/
def isWordChar (c : Char) : Bool := c.isAlphanum || c = '_'

/-- `word.replace(/[^\w\s]/g, '')` applied to a whitespace-free token: drop
every non-word character. -/
def stripNonWord (s : String) : String :=
  String.mk (s.data.filter isWordChar)

/-- Whether the (stripped) token starts with an ASCII capital (`/^[A-Z]/`). -/
def startsCapital (s : String) : Bool :=
  match s.data with
  | [] => false
  | c :: _ => 'A' ≤ c && c ≤ 'Z'

/-- The candidacy test of `extractNamesFromText` line 553 / 560: the stripped
token is longer than one character, starts with a capital, and is not a
stop word. -/
def isNameCandidate (w : String) : Bool :=
  w.length > 1 && startsCapital w && !isCommonWord w

/-- Join tokens with single spaces (`name += ' ' + nextWord`). -/
def joinSpace : List String → String
  | [] => ""
  | [w] => w
  | w :: rest => w ++ " " ++ joinSpace rest

/-- The scanning loop of `extractNamesFromText` (lines 549–571): walk the word
list; at each candidate token, greedily merge the following run of candidate
tokens into one multi-word name and resume after the run.  `fuel` bounds the
recursion (callers pass the word count, which suffices since every step
consumes at least one word). -/
def extractLoop : Nat → List String → List String
  | 0, _ => []
  | _, [] => []
  | fuel + 1, w :: rest =>
    let sw := stripNonWord w
    if isNameCandidate sw then
      let run := rest.takeWhile (fun x => isNameCandidate (stripNonWord x))
      joinSpace (sw :: run.map stripNonWord) ::
        extractLoop fuel
          (rest.dropWhile (fun x => isNameCandidate (stripNonWord x)))
    else extractLoop fuel rest

/-- `extractNamesFromText` (lines 541–574): split on whitespace runs and run
the candidate-merging scan. -/
def extractNamesFromText (text : String) : List String :=
  let words := jsSplitRuns Char.isWhitespace text
  extractLoop words.length words

/-- Append preserving set semantics (JS `Set.prototype.add`). -/
def addUnique (l : List String) (x : String) : List String :=
  if l.contains x then l else l ++ [x]

/-- A heterogeneous source record, carrying just the fields
`extractClientNames` inspects (Slack `text`, Zendesk/email `subject`, Harvest
`client_details.name`, email `body`). -/
structure SourceRecord where
  text : Option String
  subject : Option String
  clientDetailsName : Option String
  body : Option String
deriving Repr, DecidableEq

/-- Truthy-string projection used for `if (item.text)` etc. -/
def strOrNone (o : Option String) : Option String :=
  match o with
  | some s => if s = "" then none else some s
  | none => none

/-- `extractClientNames` (lines 503–534): collect the names extracted from each
record's textual fields into an insertion-ordered set.  The source checks
`item.subject` twice (once for Zendesk tickets and once for emails); the second
pass re-adds the same names to the `Set`, which is a no-op, and is modelled by
the same single `addAll` because `addUnique` is idempotent per name. -/
def extractClientNames (data : List SourceRecord) : List String :=
  data.foldl
    (fun acc item =>
      let acc := match strOrNone item.text with
        | some t => (extractNamesFromText t).foldl addUnique acc
        | none => acc
      let acc := match strOrNone item.subject with
        | some t => (extractNamesFromText t).foldl addUnique acc
        | none => acc
      let acc := match strOrNone item.clientDetailsName with
        | some n => addUnique acc n
        | none => acc
      let acc := match strOrNone item.subject with
        | some t => (extractNamesFromText t).foldl addUnique acc
        | none => acc
      match strOrNone item.body with
        | some t => (extractNamesFromText t).foldl addUnique acc
        | none => acc)
    []

/-! ## The durable store

Happy-path in-memory model of the Supabase tables the core touches. -/

/-- A row of the `summaries` table. -/
structure Summary where
  id : String
  source : String
  summary : String
  created_at : Timestamp
deriving Repr, DecidableEq

/-- A row of the `feedback` table. -/
structure Feedback where
  id : Nat
  summary_id : String
  rating : String
  comment : String
  user_id : Option String
  created_at : Timestamp
deriving Repr, DecidableEq

/-- A row of the `feedback_patterns` table. -/
structure FeedbackPattern where
  summary_id : String
  rating : String
  source : String
  pattern_type : String
  content : String
  user_edit : Option String
  created_at : Timestamp
deriving Repr, DecidableEq

/-- A row of the `edit_analyses` table.  `length_change_percent` is a JS float
in the source, modelled as an exact rational. -/
structure EditAnalysisRow where
  summary_id : String
  original_length : Nat
  edited_length : Nat
  length_change_percent : Rat
  tone_change : String
  style_change : String
  created_at : Timestamp
deriving Repr, DecidableEq

/-- A row of the `rejection_analyses` table. -/
structure RejectionAnalysis where
  summary_id : String
  source : String
  content : String
  similar_rejections : Nat
  created_at : Timestamp
deriving Repr, DecidableEq

/-- A row of the `analytics` table. -/
structure AnalyticsEvent where
  event_type : String
  source : String
  rating : String
  has_comment : Bool
  timestamp : Timestamp
deriving Repr, DecidableEq

/-- The durable store: one list per table (inserts append and succeed), plus a
counter from which generated primary keys are drawn. -/
structure Db where
  summaries : List Summary
  feedback : List Feedback
  feedback_patterns : List FeedbackPattern
  edit_analyses : List EditAnalysisRow
  rejection_analyses : List RejectionAnalysis
  analytics : List AnalyticsEvent
  clients : List Client
  nextId : Nat
deriving Repr, DecidableEq

/-- The empty store. -/
def emptyDb : Db := ⟨[], [], [], [], [], [], [], 0⟩

/-- `.select().eq('id', id).single()` against the `summaries` table: succeeds
exactly when one row matches. -/
def singleSummaryById (db : Db) (id : String) : Option Summary :=
  match db.summaries.filter (fun s => s.id = id) with
  | [s] => some s
  | _ => none

/-! ## Context resolver operations (`src/unnamed/part_005`) -/

/-- Result of `getRelevantClientContext`: the context bundle plus the updated
cache/store and counters of the effects performed (cache batch reads, store
select queries, store update statements). -/
structure CtxResult where
  clients : List Client
  cache : ShortTermCache
  db : Db
  cacheReads : Nat
  dbQueries : Nat
  dbWrites : Nat
deriving Repr, DecidableEq

/-- `updateClientLastMentioned` (lines 644–693): bump `last_mentioned` and
`updated_at` for the given ids in the store, mirroring the bump into any cached
copies.  The source splits a single id from a batch purely as a performance
matter; both branches perform the same update, modelled once.  Returns the new
cache, store and the number of update statements issued. -/
def updateClientLastMentioned (clientIds : List String) (cs : ShortTermCache)
    (db : Db) (now : Timestamp) : ShortTermCache × Db × Nat :=
  if clientIds = [] then (cs, db, 0)
  else
    let bump := fun (c : Client) =>
      { c with last_mentioned := some now, updated_at := some now }
    let dbRows := db.clients.map
      (fun c => if clientIds.contains c.id then bump c else c)
    let csRows := cs.clients.map
      (fun p => if clientIds.contains p.1 then (p.1, bump p.2) else p)
    ({ cs with clients := csRows }, { db with clients := dbRows }, 1)

/-- `getRelevantClientContext` (lines 63–135): extract candidate names, serve
what the fresh cache can, fetch the rest from the store in one batched lookup,
merge into the cache, bump recency, and return store hits first with cached
hits appended de-duplicated by id. -/
def getRelevantClientContext (data : List SourceRecord) (cs : ShortTermCache)
    (db : Db) (now : Timestamp) : CtxResult :=
  if data = [] then ⟨[], cs, db, 0, 0, 0⟩
  else
    let clientNames := extractClientNames data
    if clientNames = [] then ⟨[], cs, db, 0, 0, 0⟩
    else
      let cachedClients := getCachedClients clientNames cs
      if cachedClients.length = clientNames.length ∧
          now - cs.lastUpdated < CACHE_TTL then
        ⟨cachedClients, cs, db, 1, 0, 0⟩
      else
        let missingClientNames := clientNames.filter (fun name =>
          !(cachedClients.any (fun c => c.name = name)) ||
            CACHE_TTL ≤ now - cs.lastUpdated)
        let step :
            List Client × ShortTermCache × Db × Nat × Nat :=
          if missingClientNames = [] then ([], cs, db, 0, 0)
          else
            let dbClients :=
              db.clients.filter (fun c => missingClientNames.contains c.name)
            let cs1 := updateClientCache dbClients cs now
            let r := updateClientLastMentioned (dbClients.map (fun c => c.id))
              cs1 db now
            (dbClients, r.1, r.2.1, 1, r.2.2)
        let allClients := step.1
        let allClients := cachedClients.foldl
          (fun acc cc =>
            if acc.any (fun c => c.id = cc.id) then acc else acc ++ [cc])
          allClients
        ⟨allClients, step.2.1, step.2.2.1, 1, step.2.2.2.1, step.2.2.2.2⟩

/-- Result of `getClientById`. -/
structure GetClientResult where
  result : Option Client
  cache : ShortTermCache
  dbQueries : Nat
deriving Repr, DecidableEq

/-- `getClientById` (lines 142–183): serve from the cache when the id is
resident and the pool-wide stamp is within TTL, else query the store and cache
the hit (without refreshing the pool-wide stamp). -/
def getClientById (clientId : String) (cs : ShortTermCache) (db : Db)
    (now : Timestamp) : GetClientResult :=
  if clientId = "" then ⟨none, cs, 0⟩
  else if (mapGet cs.clients clientId).isSome ∧
      now - cs.lastUpdated < CACHE_TTL then
    ⟨mapGet cs.clients clientId, cs, 0⟩
  else
    match db.clients.filter (fun c => c.id = clientId) with
    | [c] => ⟨some c, { cs with clients := mapSet cs.clients clientId c }, 1⟩
    | _ => ⟨none, cs, 1⟩

/-- Input to `createClient` (`clientData`); an absent `profile` is already
defaulted to the empty blob (`clientData.profile || {}`). -/
structure ClientData where
  name : String
  profile : List (String × String)
deriving Repr, DecidableEq

/-- Result of `createClient`. -/
structure CreateClientResult where
  result : Option Client
  cache : ShortTermCache
  db : Db
deriving Repr, DecidableEq

/-- `createClient` (lines 244–316): insert a new client row; when the store
rejects the insert with the unique-name violation (Postgres 23505), fetch the
existing row by name, cache it and return it; return `null` only when that
secondary fetch fails too. -/
def createClient (clientData : ClientData) (cs : ShortTermCache) (db : Db)
    (now : Timestamp) : CreateClientResult :=
  if clientData.name = "" then ⟨none, cs, db⟩
  else if db.clients.any (fun c => c.name = clientData.name) then
    match db.clients.filter (fun c => c.name = clientData.name) with
    | [existingClient] =>
      ⟨some existingClient,
        { cs with clients := mapSet cs.clients existingClient.id existingClient },
        db⟩
    | _ => ⟨none, cs, db⟩
  else
    let client : Client :=
      { id := "client-" ++ toString db.nextId
        name := clientData.name
        profile := clientData.profile
        last_mentioned := some now
        updated_at := some now
        created_at := now }
    ⟨some client,
      { cs with clients := mapSet cs.clients client.id client },
      { db with clients := db.clients ++ [client], nextId := db.nextId + 1 }⟩

/-! ## Feedback store and pattern learner (`src/backend/memory/feedbackHandler.js`) -/

/-- `RATING_TYPES` values, in source order. -/
def RATING_TYPES : List String := ["approved", "edited", "rejected"]

/-- The learned preference sub-object (`patterns.patterns`). -/
structure PatternPrefs where
  tone : String
  length : String
  style : String
deriving Repr, DecidableEq

/-- The feedback-patterns aggregate built by `getFeedbackPatterns`. -/
structure Patterns where
  approvalRate : Rat
  editRate : Rat
  rejectionRate : Rat
  patterns : PatternPrefs
  sources : List (String × Nat)
  timeDistribution : List (Nat × Nat)
deriving Repr, DecidableEq

/-- The module-level `feedbackPatternsCache` (its `ttl` field is the constant
`feedbackPatternsTTL`). -/
structure PatternsCache where
  patterns : Option Patterns
  lastUpdated : Timestamp
deriving Repr, DecidableEq

/-- `feedbackPatternsCache.ttl`, 5 minutes in milliseconds. -/
def feedbackPatternsTTL : Nat := 5 * 60 * 1000

/-- The cache's initial state (`patterns: null`). -/
def emptyPatternsCache : PatternsCache := ⟨none, 0⟩

/-- The four fixed tone lexicons of `analyzeToneChange` (lines 422–427), in
source order. -/
def toneIndicators : List (String × List String) :=
  [("formal", ["therefore", "consequently", "furthermore", "thus", "hence",
               "regarding"]),
   ("casual", ["hey", "cool", "awesome", "great", "thanks", "cheers"]),
   ("technical", ["implement", "system", "process", "function", "data",
                  "analysis"]),
   ("friendly", ["please", "appreciate", "thank you", "welcome", "happy to"])]

/-- Count how many of a lexicon's words occur (case-insensitively) in a text:
`words.filter(w => text.toLowerCase().includes(w.toLowerCase())).length`. -/
def lexiconCount (text : String) (words : List String) : Nat :=
  (words.filter (fun w => containsCI text w)).length

/-- The dominant tone of a list of per-lexicon counts: start from `neutral`
with count 0 and take each strictly greater count, so the first lexicon wins
ties (lines 444–460). -/
def dominantTone (counts : List (String × Nat)) : String :=
  (counts.foldl (fun acc p => if p.2 > acc.2 then (p.1, p.2) else acc)
    ("neutral", 0)).1

/-- `analyzeToneChange` (lines 418–468). -/
def analyzeToneChange (originalText editedText : String) : String :=
  let originalCounts := toneIndicators.map
    (fun ti => (ti.1, lexiconCount originalText ti.2))
  let editedCounts := toneIndicators.map
    (fun ti => (ti.1, lexiconCount editedText ti.2))
  let originalTone := dominantTone originalCounts
  let editedTone := dominantTone editedCounts
  if originalTone ≠ editedTone then originalTone ++ " to " ++ editedTone
  else "unchanged"

/-- Sentence-splitting of `analyzeStyleChange`: `split(/[.!?]+/)` then keep the
fragments with non-empty trim. -/
def styleSentences (text : String) : List String :=
  (jsSplitRuns (fun c => c = '.' || c = '!' || c = '?') text).filter
    (fun s => (jsTrim s).length > 0)

/-- Average sentence length (a JS float, modelled exactly): 0 when there are
no sentences. -/
def avgSentenceLength (sentences : List String) : Rat :=
  if sentences.length > 0 then
    ((sentences.foldl (fun sum s => sum + s.length) 0 : Nat) : Rat) /
      (sentences.length : Rat)
  else 0

/-- Bullet-glyph count: `(text.match(/[-*•]/g) || []).length`. -/
def bulletCount (text : String) : Nat :=
  (text.data.filter (fun c => c = '-' || c = '*' || c = '•')).length

/-- `analyzeStyleChange` (lines 476–520).  `Math.abs(d) > 10` is written as the
two-sided comparison, and the `1.2×` length ratio as the exact rational 6/5. -/
def analyzeStyleChange (originalText editedText : String) : String :=
  let originalAvgLength := avgSentenceLength (styleSentences originalText)
  let editedAvgLength := avgSentenceLength (styleSentences editedText)
  let originalBullets := bulletCount originalText
  let editedBullets := bulletCount editedText
  let sentenceLengthDiff := editedAvgLength - originalAvgLength
  let changes : List String :=
    if sentenceLengthDiff > 10 ∨ sentenceLengthDiff < -10 then
      [if sentenceLengthDiff > 0 then "longer sentences" else "shorter sentences"]
    else []
  let changes :=
    if editedBullets > originalBullets + 2 then changes ++ ["more bullet points"]
    else if originalBullets > editedBullets + 2 then
      changes ++ ["fewer bullet points"]
    else changes
  let changes :=
    if (editedText.length : Rat) > (originalText.length : Rat) * (6 / 5 : Rat)
    then changes ++ ["more detailed"]
    else if (originalText.length : Rat) > (editedText.length : Rat) * (6 / 5 : Rat)
    then changes ++ ["more concise"]
    else changes
  if changes ≠ [] then String.intercalate (", ") changes else "unchanged"

/-- `analyzeEdits` (lines 348–410): derive and persist an edit analysis;
invalid inputs make it a no-op (best-effort side path). -/
def analyzeEdits (summary : Summary) (editedText : String) (db : Db)
    (now : Timestamp) : Db :=
  if summary.id = "" then db
  else if editedText = "" then db
  else
    let originalText := summary.summary
    let originalLength := originalText.length
    let editedLength := editedText.length
    let lengthDifference : Int := (editedLength : Int) - (originalLength : Int)
    let lengthChangePercent : Rat :=
      if originalLength > 0 then
        ((lengthDifference : Rat) / (originalLength : Rat)) * 100
      else 0
    let row : EditAnalysisRow :=
      { summary_id := summary.id
        original_length := originalLength
        edited_length := editedLength
        length_change_percent := lengthChangePercent
        tone_change := analyzeToneChange originalText editedText
        style_change := analyzeStyleChange originalText editedText
        created_at := now }
    { db with edit_analyses := db.edit_analyses ++ [row] }

/-- `analyzeRejection` (lines 527–601): count, among the 10 most recent
summaries of the same source (excluding the rejected one itself), those that
also have rejected feedback, and persist the count.  The source accumulates the
matching summaries in an array and only ever uses its length, modelled as a
filter plus `length`. -/
def analyzeRejection (summary : Summary) (db : Db) (now : Timestamp) : Db :=
  if summary.id = "" then db
  else
    let recentRejections :=
      (sortLe (fun a b => b.created_at ≤ a.created_at)
        (db.summaries.filter (fun s => s.source = summary.source))).take 10
    let rejectionPatterns := recentRejections.filter (fun recentSummary =>
      recentSummary.id ≠ summary.id ∧
        (db.feedback.filter (fun f =>
          f.summary_id = recentSummary.id ∧ f.rating = "rejected")) ≠ [])
    let row : RejectionAnalysis :=
      { summary_id := summary.id
        source := summary.source
        content := summary.summary
        similar_rejections := rejectionPatterns.length
        created_at := now }
    { db with rejection_analyses := db.rejection_analyses ++ [row] }

/-- `trackFeedbackAnalytics` (lines 609–651): best-effort analytics write,
skipped when the summary row cannot be fetched. -/
def trackFeedbackAnalytics (summaryId rating comment : String) (db : Db)
    (now : Timestamp) : Db :=
  if summaryId = "" then db
  else
    match singleSummaryById db summaryId with
    | none => db
    | some summary =>
      let row : AnalyticsEvent :=
        { event_type := "feedback"
          source := summary.source
          rating := rating
          has_comment := comment ≠ ""
          timestamp := now }
      { db with analytics := db.analytics ++ [row] }

/-- `updateFeedbackPatterns` (lines 273–340): persist a feedback-pattern row
for the summary, run the edit/rejection analyzers when applicable, and
invalidate the patterns cache.  The early returns (empty id, summary row not
found) skip the invalidation at line 334. -/
def updateFeedbackPatterns (summaryId rating comment : String) (db : Db)
    (pc : PatternsCache) (now : Timestamp) : Db × PatternsCache :=
  if summaryId = "" then (db, pc)
  else
    match singleSummaryById db summaryId with
    | none => (db, pc)
    | some summary =>
      let row : FeedbackPattern :=
        { summary_id := summaryId
          rating := rating
          source := summary.source
          pattern_type :=
            if rating = "edited" then "edit"
            else if rating = "rejected" then "rejection"
            else "approval"
          content := summary.summary
          user_edit := if comment = "" then none else some comment
          created_at := now }
      let db1 := { db with feedback_patterns := db.feedback_patterns ++ [row] }
      let db2 :=
        if rating = "edited" ∧ comment ≠ "" then analyzeEdits summary comment db1 now
        else db1
      let db3 := if rating = "rejected" then analyzeRejection summary db2 now else db2
      (db3, { pc with patterns := none })

/-- Result of `storeFeedback`. -/
structure StoreFeedbackResult where
  result : Option Feedback
  db : Db
  cache : PatternsCache
deriving Repr, DecidableEq

/-- `storeFeedback` (lines 69–123): reject a falsy `summaryId` by returning
`null` at once; normalize an unknown rating to `approved`; insert the feedback
row; update the derived patterns; invalidate the patterns cache; track
analytics; return the stored row. -/
def storeFeedback (summaryId : Option String) (rating comment : String)
    (userId : Option String) (now : Timestamp) (db : Db) (pc : PatternsCache) :
    StoreFeedbackResult :=
  if jsFalsyStr summaryId then ⟨none, db, pc⟩
  else
    let sid := summaryId.getD ""
    let rating1 := if RATING_TYPES.contains rating then rating else "approved"
    let feedback : Feedback :=
      { id := db.nextId
        summary_id := sid
        rating := rating1
        comment := comment
        user_id := strOrNone userId
        created_at := now }
    let db1 :=
      { db with feedback := db.feedback ++ [feedback], nextId := db.nextId + 1 }
    let r := updateFeedbackPatterns sid rating1 comment db1 pc now
    let pc1 := { r.2 with patterns := none }
    let db2 := trackFeedbackAnalytics sid rating1 comment r.1 now
    ⟨some feedback, db2, pc1⟩

/-- The statistics object of `getFeedbackStats`.  The empty-data early return
(lines 188–199) builds an object without `editRate`/`rejectionRate`, modelled
by `none` (JS `undefined`). -/
structure FeedbackStats where
  total : Nat
  approved : Nat
  edited : Nat
  rejected : Nat
  approvalRate : Rat
  editRate : Option Rat
  rejectionRate : Option Rat
  sources : List (String × Nat)
  timeDistribution : List (Nat × Nat)
deriving Repr, DecidableEq

/-- The empty statistics object. -/
def emptyFeedbackStats : FeedbackStats := ⟨0, 0, 0, 0, 0, none, none, [], []⟩

/-- `getFeedbackStats` (lines 163–264): counts and rates over the trailing
window, with per-source and per-day distributions.  The `days`-ago cutoff is
`days` exact days in milliseconds; the per-feedback `if (f.created_at)` guard
always holds here because every modelled row carries a timestamp (an ISO
string is always truthy). -/
def getFeedbackStats (days : Nat) (db : Db) (now : Timestamp) : FeedbackStats :=
  let daysAgo := now - days * 86400000
  let feedback := db.feedback.filter (fun f => daysAgo ≤ f.created_at)
  if feedback = [] then emptyFeedbackStats
  else
    let approved := (feedback.filter (fun f => f.rating = "approved")).length
    let edited := (feedback.filter (fun f => f.rating = "edited")).length
    let rejected := (feedback.filter (fun f => f.rating = "rejected")).length
    let total := feedback.length
    let dists := feedback.foldl
      (fun (acc : List (String × Nat) × List (Nat × Nat)) f =>
        let sources :=
          if f.summary_id ≠ "" then
            match singleSummaryById db f.summary_id with
            | some s => if s.source ≠ "" then incrAssoc acc.1 s.source else acc.1
            | none => acc.1
          else acc.1
        (sources, incrAssocNat acc.2 (f.created_at / 86400000)))
      ([], [])
    { total := total
      approved := approved
      edited := edited
      rejected := rejected
      approvalRate :=
        if total > 0 then ((approved : Rat) / (total : Rat)) * 100 else 0
      editRate :=
        some (if total > 0 then ((edited : Rat) / (total : Rat)) * 100 else 0)
      rejectionRate :=
        some (if total > 0 then ((rejected : Rat) / (total : Rat)) * 100 else 0)
      sources := dists.1
      timeDistribution := dists.2 }

/-- JS `x || fallback` on a possibly-missing rate (`undefined` and `0` both
select the fallback). -/
def jsOrRat (x : Option Rat) (fallback : Rat) : Rat :=
  match x with
  | some r => if r = 0 then fallback else r
  | none => fallback

/-- The recompute body of `getFeedbackPatterns` (lines 666–767): statistics,
then tone/length/style preferences from the 20 most recent edit analyses. -/
def computeFeedbackPatterns (db : Db) (now : Timestamp) : Patterns :=
  let stats := getFeedbackStats 30 db now
  let editAnalyses :=
    (sortLe (fun a b => b.created_at ≤ a.created_at) db.edit_analyses).take 20
  let toneChanges :=
    (editAnalyses.filter (fun a =>
      a.tone_change ≠ "" ∧ a.tone_change ≠ "unchanged")).map
      (fun a => a.tone_change)
  let toneCounts := toneChanges.foldl
    (fun acc change =>
      match (jsSplitOnStr " to " change).get? 1 with
      | some targetTone =>
        if targetTone ≠ "" then incrAssoc acc targetTone else acc
      | none => acc)
    []
  let preferredTone :=
    (toneCounts.foldl (fun acc p => if p.2 > acc.1 then (p.2, p.1) else acc)
      (0, "neutral")).2
  let lengthChanges :=
    (editAnalyses.filter (fun a =>
      a.style_change ≠ "" ∧
        (containsSub a.style_change "concise" ∨
          containsSub a.style_change "detailed"))).map (fun a => a.style_change)
  let preferredLength :=
    if lengthChanges ≠ [] then
      let moreDetailed :=
        (lengthChanges.filter (fun c => containsSub c "more detailed")).length
      let moreConcise :=
        (lengthChanges.filter (fun c => containsSub c "more concise")).length
      if moreDetailed > moreConcise then "detailed"
      else if moreConcise > moreDetailed then "concise"
      else "medium"
    else "medium"
  let styleChanges :=
    (editAnalyses.filter (fun a =>
      a.style_change ≠ "" ∧ ¬containsSub a.style_change "concise" ∧
        ¬containsSub a.style_change "detailed")).map (fun a => a.style_change)
  let preferredStyle :=
    if styleChanges ≠ [] then
      let moreBullets :=
        (styleChanges.filter (fun c => containsSub c "more bullet")).length
      let fewerBullets :=
        (styleChanges.filter (fun c => containsSub c "fewer bullet")).length
      let style1 := if moreBullets > fewerBullets then "bullet-points"
        else "professional"
      let longerSentences :=
        (styleChanges.filter (fun c => containsSub c "longer sentences")).length
      let shorterSentences :=
        (styleChanges.filter (fun c => containsSub c "shorter sentences")).length
      if longerSentences > shorterSentences then
        (if style1 = "bullet-points" then "bullet-points-with-longer-sentences"
         else "longer-sentences")
      else if shorterSentences > longerSentences then
        (if style1 = "bullet-points" then "bullet-points-with-shorter-sentences"
         else "shorter-sentences")
      else style1
    else "professional"
  { approvalRate := stats.approvalRate
    editRate := jsOrRat stats.editRate
      (if stats.total > 0 then ((stats.edited : Rat) / (stats.total : Rat)) * 100
       else 0)
    rejectionRate := jsOrRat stats.rejectionRate
      (if stats.total > 0 then ((stats.rejected : Rat) / (stats.total : Rat)) * 100
       else 0)
    patterns :=
      { tone := preferredTone, length := preferredLength, style := preferredStyle }
    sources := stats.sources
    timeDistribution := stats.timeDistribution }

/-- Result of `getFeedbackPatterns`: the aggregate, the new cache state, and
whether this call recomputed (versus serving the cached structure). -/
structure PatternsResult where
  patterns : Patterns
  cache : PatternsCache
  recomputed : Bool
deriving Repr, DecidableEq

/-- `getFeedbackPatterns` (lines 657–791): serve the cached aggregate while it
is present and younger than the TTL, else recompute and re-cache. -/
def getFeedbackPatterns (db : Db) (pc : PatternsCache) (now : Timestamp) :
    PatternsResult :=
  match pc.patterns with
  | some cached =>
    if now - pc.lastUpdated < feedbackPatternsTTL then ⟨cached, pc, false⟩
    else
      let p := computeFeedbackPatterns db now
      ⟨p, ⟨some p, now⟩, true⟩
  | none =>
    let p := computeFeedbackPatterns db now
    ⟨p, ⟨some p, now⟩, true⟩

/-! ## Request orchestrator (`processWithAI`, summarize router of
`src/backend/routes/fetchHarvest.js`, lines 522–642)

The model endpoint is an oracle from the attempt index (0-based) to that
attempt's outcome; `JSON.parse` is an oracle from the raw response text to the
parsed value, `none` meaning a thrown `SyntaxError`.  Prompt rendering (the
template `DATA` substitution and the system message) only feeds the opaque
endpoint and is absorbed into the oracle; it does not vary across attempts. -/

mutual

/-- A JS/JSON value (the possible results of `JSON.parse` and of the fallback
extraction). -/
inductive JVal where
  | jstr (s : String)
  | jbool (b : Bool)
  | jnull
  | jarr (elems : JArr)
  | jobj (fields : JObj)
deriving Repr, DecidableEq

/-- A JSON array (spelled out so equality stays decidable). -/
inductive JArr where
  | nil
  | cons (hd : JVal) (tl : JArr)
deriving Repr, DecidableEq

/-- A JSON object: insertion-ordered fields. -/
inductive JObj where
  | nil
  | cons (k : String) (v : JVal) (tl : JObj)
deriving Repr, DecidableEq

end

/-- The key list of a JSON object. -/
def JObj.keys : JObj → List String
  | .nil => []
  | .cons k _ tl => k :: tl.keys

/-- Field lookup in a JSON object. -/
def JObj.lookup : JObj → String → Option JVal
  | .nil, _ => none
  | .cons k v tl, key => if k = key then some v else tl.lookup key

/-- A JSON array of strings. -/
def JArr.ofStrings : List String → JArr
  | [] => .nil
  | s :: rest => .cons (.jstr s) (JArr.ofStrings rest)

/-- The keys of a result value when it is an object (else none). -/
def resultKeys : JVal → List String
  | .jobj fields => fields.keys
  | _ => []

/-- Field access on a result value (`result.field`). -/
def resultLookup : JVal → String → Option JVal
  | .jobj fields, key => fields.lookup key
  | _, _ => none

/-- Offset of the first position in `l` where one of `stops` starts (all
lowercase), or `l.length` when none does: the first position at which the
lookahead `(?=stop|$)` succeeds. -/
def firstStopIdx (stops : List String) : List Char → Nat
  | [] => 0
  | c :: rest =>
    if stops.any (fun s => s.data.isPrefixOf (c :: rest)) then 0
    else firstStopIdx stops rest + 1

/-- The model of `text.match(/label(.*?)(?=stop|$)/is)?.[1]`: find the first
(case-insensitive) occurrence of `label`; capture lazily from right after it up
to the first occurrence of a stop label or the end of the text.  `label` and
`stops` are given in lowercase. -/
def matchSection (label : String) (stops : List String) (text : String) :
    Option String :=
  let low := lowerAscii text
  match findSubIdx label.data low.data with
  | none => none
  | some i =>
    let start := i + label.length
    let stopOff := firstStopIdx stops (low.data.drop start)
    some (String.mk ((text.data.drop start).take stopOff))

/-- `item.trim().replace(/^-\s*/, '')`: strip one leading dash and the
whitespace after it. -/
def stripLeadingDash (s : String) : String :=
  match s.data with
  | '-' :: rest => String.mk (rest.dropWhile Char.isWhitespace)
  | _ => s

/-- The item-list extraction applied to a captured section (lines 615–621):
split on newlines, keep lines with non-empty trim, trim and strip a leading
dash; `[]` when the section did not match. -/
def extractItems : Option String → List String
  | none => []
  | some content =>
    ((jsSplitOnStr "\n" content).filter (fun item => jsTrim item ≠ "")).map
      (fun item => stripLeadingDash (jsTrim item))

/-- The heuristic fallback extraction of `processWithAI` (lines 607–635), run
when `JSON.parse` fails: labeled-section regex extraction for the summary, the
action items and the suggested messages, the summary defaulting to the whole
response when its capture is missing or trims to empty. -/
def fallbackExtract (aiResponse : String) : JVal :=
  let summaryCap := (matchSection "summary:" ["action_items:"] aiResponse).map jsTrim
  let summary :=
    match summaryCap with
    | some s => if s = "" then aiResponse else s
    | none => aiResponse
  let actionItems :=
    extractItems (matchSection "action_items:" ["suggested_messages:"] aiResponse)
  let suggestedMessages :=
    extractItems (matchSection "suggested_messages:" [] aiResponse)
  .jobj (.cons "summary" (.jstr summary)
    (.cons "action_items" (.jarr (JArr.ofStrings actionItems))
      (.cons "suggested_messages" (.jarr (JArr.ofStrings suggestedMessages))
        .nil)))

/-- `maxRetries` (line 560). -/
def maxRetries : Nat := 3

/-- The backoff sleep issued after the failure that raised `retries` to the
given value: `1000 * Math.pow(2, retries)` milliseconds (line 594). -/
def backoffMs (retries : Nat) : Nat := 1000 * 2 ^ retries

deriving instance DecidableEq for Except

/-- Trace of the retry loop: how many times the endpoint was called, the
backoff sleeps awaited between attempts (in order, in milliseconds), and the
final outcome. -/
structure CallTrace where
  attempts : Nat
  sleeps : List Nat
  outcome : Except String String
deriving Repr, DecidableEq

/-- The retry loop of `processWithAI` (lines 558–596): `while (retries <
maxRetries)` — try the endpoint; on success break; on failure increment
`retries`, throw once `retries` reaches `maxRetries`, otherwise sleep
`backoffMs retries` and loop.  `fuel` is `maxRetries - retries`, which bounds
the remaining iterations. -/
def aiCallLoop (endpoint : Nat → Except String String) :
    Nat → Nat → List Nat → CallTrace
  | 0, retries, sleeps => ⟨retries, sleeps.reverse, .error "no response"⟩
  | fuel + 1, retries, sleeps =>
    match endpoint retries with
    | .ok response => ⟨retries + 1, sleeps.reverse, .ok response⟩
    | .error msg =>
      let retries1 := retries + 1
      if maxRetries ≤ retries1 then
        ⟨retries1, sleeps.reverse,
          .error ("Failed to get AI response after " ++ toString maxRetries ++
            " attempts: " ++ msg)⟩
      else aiCallLoop endpoint fuel retries1 (backoffMs retries1 :: sleeps)

/-- The retry loop from its entry state. -/
def aiCall (endpoint : Nat → Except String String) : CallTrace :=
  aiCallLoop endpoint maxRetries 0 []

/-- Result of `processWithAI`: the outcome (a thrown error after retries are
exhausted, or the parsed/extracted result value), the patterns-cache state
after the `getFeedbackPatterns` call, and the retry trace. -/
structure AIResult where
  result : Except String JVal
  cache : PatternsCache
  attempts : Nat
  sleeps : List Nat
deriving Repr, DecidableEq

/-- `processWithAI` (lines 522–642): fetch the feedback patterns, call the
endpoint with retry/backoff, then parse the response, falling back to
`fallbackExtract` when `JSON.parse` fails.  A retry-exhausted failure is
rethrown wrapped as `AI processing failed: ...`. -/
def processWithAI (db : Db) (pc : PatternsCache) (now : Timestamp)
    (endpoint : Nat → Except String String)
    (jsonParse : String → Option JVal) : AIResult :=
  let pr := getFeedbackPatterns db pc now
  let trace := aiCall endpoint
  match trace.outcome with
  | .error msg =>
    ⟨.error ("AI processing failed: " ++ msg), pr.cache, trace.attempts,
      trace.sleeps⟩
  | .ok aiResponse =>
    let v :=
      match jsonParse aiResponse with
      | some parsed => parsed
      | none => fallbackExtract aiResponse
    ⟨.ok v, pr.cache, trace.attempts, trace.sleeps⟩

/-! ## Frame lemmas for the feedback write path -/

/-- `analyzeEdits` never touches the `feedback` table. -/
theorem analyzeEdits_feedback_eq (summary : Summary) (editedText : String)
    (db : Db) (now : Timestamp) :
    (analyzeEdits summary editedText db now).feedback = db.feedback := by
  unfold analyzeEdits
  split
  · rfl
  · split
    · rfl
    · rfl

/-- `analyzeRejection` never touches the `feedback` table. -/
theorem analyzeRejection_feedback_eq (summary : Summary) (db : Db)
    (now : Timestamp) :
    (analyzeRejection summary db now).feedback = db.feedback := by
  unfold analyzeRejection
  split
  · rfl
  · rfl

/-- `updateFeedbackPatterns` never touches the `feedback` table. -/
theorem updateFeedbackPatterns_feedback_eq (sid rating comment : String)
    (db : Db) (pc : PatternsCache) (now : Timestamp) :
    (updateFeedbackPatterns sid rating comment db pc now).1.feedback =
      db.feedback := by
  unfold updateFeedbackPatterns
  split
  · rfl
  · split
    · rfl
    · dsimp only
      split_ifs <;>
        simp [analyzeEdits_feedback_eq, analyzeRejection_feedback_eq]

/-- `trackFeedbackAnalytics` never touches the `feedback` table. -/
theorem trackFeedbackAnalytics_feedback_eq (sid rating comment : String)
    (db : Db) (now : Timestamp) :
    (trackFeedbackAnalytics sid rating comment db now).feedback = db.feedback := by
  unfold trackFeedbackAnalytics
  split
  · rfl
  · split
    · rfl
    · rfl

/-- Claim C1: calling `storeFeedback` with an empty (null, undefined or
empty-string) `summaryId` fails immediately — the validation guard returns the
module's failure value (`null`) to the caller before any store interaction, so
no feedback record is persisted and neither the store nor the patterns cache
changes. -/
theorem storeFeedback_empty_summaryId_fails (summaryId : Option String)
    (rating comment : String) (userId : Option String) (now : Timestamp)
    (db : Db) (pc : PatternsCache)
    (h : jsFalsyStr summaryId = true) :
    storeFeedback summaryId rating comment userId now db pc = ⟨none, db, pc⟩ := by
  cases summaryId with
  | none => rfl
  | some s =>
    have hs : s = "" := by simpa [jsFalsyStr] using h
    subst hs
    rfl

/-- Witness for C1 at the concrete empty-string input. -/
theorem storeFeedback_empty_summaryId_fails_witness :
    storeFeedback (some "") "approved" "nice" none 1000 emptyDb
      emptyPatternsCache = ⟨none, emptyDb, emptyPatternsCache⟩ :=
  storeFeedback_empty_summaryId_fails (some "") "approved" "nice" none 1000
    emptyDb emptyPatternsCache (by decide)

/-- Claim C4: `storeFeedback` with a non-empty `summaryId` and a verdict
outside the three known rating values is not rejected: the record is persisted
with the verdict normalized to `approved` and returned to the caller. -/
theorem storeFeedback_normalizes_unknown_verdict (sid rating comment : String)
    (userId : Option String) (now : Timestamp) (db : Db) (pc : PatternsCache)
    (hsid : sid ≠ "") (hr : rating ∉ RATING_TYPES) :
    ∃ fb : Feedback,
      (storeFeedback (some sid) rating comment userId now db pc).result =
        some fb ∧
      fb.rating = "approved" ∧
      fb ∈ (storeFeedback (some sid) rating comment userId now db pc).db.feedback := by
  refine ⟨⟨db.nextId, sid, "approved", comment, strOrNone userId, now⟩, ?_, rfl, ?_⟩
  · simp [storeFeedback, jsFalsyStr, hsid, hr]
  · simp [storeFeedback, jsFalsyStr, hsid, hr,
      trackFeedbackAnalytics_feedback_eq, updateFeedbackPatterns_feedback_eq]

/-- Witness for C4 at the concrete verdict `bogus`. -/
theorem storeFeedback_normalizes_unknown_verdict_witness :
    ∃ fb : Feedback,
      (storeFeedback (some "s1") "bogus" "" none 2000 emptyDb
        emptyPatternsCache).result = some fb ∧
      fb.rating = "approved" ∧
      fb ∈ (storeFeedback (some "s1") "bogus" "" none 2000 emptyDb
        emptyPatternsCache).db.feedback :=
  storeFeedback_normalizes_unknown_verdict "s1" "bogus" "" none 2000 emptyDb
    emptyPatternsCache (by decide) (by decide)

/-- Claim C2 counterexample: with an endpoint that fails on every attempt, the
backoff sleeps actually awaited are 2 s then 4 s (`1000 * 2^retries` with
`retries` already incremented), not the claimed 1 s then 2 s. -/
theorem processWithAI_backoff_schedule_cx :
    (processWithAI emptyDb emptyPatternsCache 0 (fun _ => .error "down")
      (fun _ => none)).sleeps = [2000, 4000] ∧
    (processWithAI emptyDb emptyPatternsCache 0 (fun _ => .error "down")
      (fun _ => none)).sleeps ≠ [1000, 2000] :=
  ⟨by decide, by decide⟩

/-- Claim C2 (amended): when the endpoint fails on every attempt, it is called
exactly 3 times with backoff sleeps of 2 s after the first failure and 4 s
after the second (`1000 * 2^k` ms after the `k`-th failure), and the operation
then fails with the retries-exhausted error; when the endpoint fails twice and
succeeds on the third attempt, the successful result is returned and the two
waits dominate the claimed 1 s / 2 s minima. -/
theorem processWithAI_retry_backoff (db : Db) (pc : PatternsCache)
    (now : Timestamp) (ep1 ep2 : Nat → Except String String)
    (jp : String → Option JVal) (e0 e1 e2 f0 f1 r : String)
    (h10 : ep1 0 = .error e0) (h11 : ep1 1 = .error e1)
    (h12 : ep1 2 = .error e2) (h20 : ep2 0 = .error f0)
    (h21 : ep2 1 = .error f1) (h22 : ep2 2 = .ok r) :
    (processWithAI db pc now ep1 jp).attempts = 3 ∧
    (processWithAI db pc now ep1 jp).sleeps = [2000, 4000] ∧
    (∃ msg, (processWithAI db pc now ep1 jp).result = .error msg) ∧
    (processWithAI db pc now ep2 jp).attempts = 3 ∧
    (processWithAI db pc now ep2 jp).sleeps = [2000, 4000] ∧
    List.Forall₂ (fun a b => a ≤ b) [1000, 2000]
      (processWithAI db pc now ep2 jp).sleeps ∧
    (processWithAI db pc now ep2 jp).result =
      .ok (match jp r with | some v => v | none => fallbackExtract r) := by
  have t1 : aiCall ep1 = ⟨3, [2000, 4000],
      .error ("Failed to get AI response after " ++ toString maxRetries ++
        " attempts: " ++ e2)⟩ := by
    simp [aiCall, aiCallLoop, h10, h11, h12, maxRetries, backoffMs]
  have t2 : aiCall ep2 = ⟨3, [2000, 4000], .ok r⟩ := by
    simp [aiCall, aiCallLoop, h20, h21, h22, maxRetries, backoffMs]
  have p1 : processWithAI db pc now ep1 jp =
      ⟨.error ("AI processing failed: " ++
          ("Failed to get AI response after " ++ toString maxRetries ++
            " attempts: " ++ e2)),
        (getFeedbackPatterns db pc now).cache, 3, [2000, 4000]⟩ := by
    simp [processWithAI, t1]
  have p2 : processWithAI db pc now ep2 jp =
      ⟨.ok (match jp r with | some v => v | none => fallbackExtract r),
        (getFeedbackPatterns db pc now).cache, 3, [2000, 4000]⟩ := by
    simp [processWithAI, t2]
  have hs2 : (processWithAI db pc now ep2 jp).sleeps = [2000, 4000] := by
    rw [p2]
  refine ⟨by rw [p1], by rw [p1], ⟨_, by rw [p1]⟩, by rw [p2], hs2,
    ?_, by rw [p2]⟩
  rw [hs2]
  decide

/-- Witness for C2 (amended) with concrete always-failing and
fail-twice-then-succeed endpoints. -/
theorem processWithAI_retry_backoff_witness :
    (processWithAI emptyDb emptyPatternsCache 0 (fun _ => .error "down")
      (fun _ => none)).attempts = 3 ∧
    (processWithAI emptyDb emptyPatternsCache 0 (fun _ => .error "down")
      (fun _ => none)).sleeps = [2000, 4000] ∧
    (∃ msg, (processWithAI emptyDb emptyPatternsCache 0 (fun _ => .error "down")
      (fun _ => none)).result = .error msg) ∧
    (processWithAI emptyDb emptyPatternsCache 0
      (fun i => if i < 2 then .error "down" else .ok "all good")
      (fun _ => none)).attempts = 3 ∧
    (processWithAI emptyDb emptyPatternsCache 0
      (fun i => if i < 2 then .error "down" else .ok "all good")
      (fun _ => none)).sleeps = [2000, 4000] ∧
    List.Forall₂ (fun a b => a ≤ b) [1000, 2000]
      (processWithAI emptyDb emptyPatternsCache 0
        (fun i => if i < 2 then .error "down" else .ok "all good")
        (fun _ => none)).sleeps ∧
    (processWithAI emptyDb emptyPatternsCache 0
      (fun i => if i < 2 then .error "down" else .ok "all good")
      (fun _ => none)).result = .ok (fallbackExtract "all good") :=
  processWithAI_retry_backoff emptyDb emptyPatternsCache 0
    (fun _ => .error "down")
    (fun i => if i < 2 then .error "down" else .ok "all good")
    (fun _ => none) "down" "down" "down" "down" "down" "all good"
    rfl rfl rfl (by decide) (by decide) (by decide)

/-- Claim C3 counterexample: on a plain-prose response that fails JSON parsing,
the orchestrator does return a result, but that result carries no
`ParseDegraded` flag under any spelling — its field set is exactly
`summary` / `action_items` / `suggested_messages`. -/
theorem processWithAI_no_parse_degraded_flag_cx :
    (processWithAI emptyDb emptyPatternsCache 0
      (fun _ => .ok "Just some plain prose.") (fun _ => none)).result =
      .ok (fallbackExtract "Just some plain prose.") ∧
    resultKeys (fallbackExtract "Just some plain prose.") =
      ["summary", "action_items", "suggested_messages"] ∧
    resultLookup (fallbackExtract "Just some plain prose.") "ParseDegraded" =
      none ∧
    resultLookup (fallbackExtract "Just some plain prose.") "parse_degraded" =
      none ∧
    resultLookup (fallbackExtract "Just some plain prose.") "parseDegraded" =
      none :=
  ⟨by decide, by decide, by decide, by decide, by decide⟩

/-- Claim C3 (amended): whenever the model response fails structural (JSON)
parsing, `processWithAI` still returns a result rather than failing: the
heuristic labeled-section fallback produces an object whose action-items field
is a (possibly empty) array, and whose fields are exactly
`summary` / `action_items` / `suggested_messages` — degradation is signalled
only by a log line, not by any `ParseDegraded` flag on the result. -/
theorem processWithAI_degrade_path (db : Db) (pc : PatternsCache)
    (now : Timestamp) (endpoint : Nat → Except String String)
    (jsonParse : String → Option JVal) (raw : String)
    (h0 : endpoint 0 = .ok raw) (hparse : jsonParse raw = none) :
    (processWithAI db pc now endpoint jsonParse).result =
      .ok (fallbackExtract raw) ∧
    resultKeys (fallbackExtract raw) =
      ["summary", "action_items", "suggested_messages"] ∧
    (∃ items : List String,
      resultLookup (fallbackExtract raw) "action_items" =
        some (.jarr (JArr.ofStrings items))) := by
  have t : aiCall endpoint = ⟨1, [], .ok raw⟩ := by
    simp [aiCall, aiCallLoop, h0, maxRetries]
  refine ⟨by simp [processWithAI, t, hparse], ?_, ?_⟩
  · simp [fallbackExtract, resultKeys, JObj.keys]
  · refine ⟨extractItems (matchSection "action_items:" ["suggested_messages:"] raw), ?_⟩
    simp [fallbackExtract, resultLookup, JObj.lookup]

/-- Witness for C3 (amended) at a concrete prose response. -/
theorem processWithAI_degrade_path_witness :
    (processWithAI emptyDb emptyPatternsCache 0
      (fun _ => .ok "Here is what happened today.") (fun _ => none)).result =
      .ok (fallbackExtract "Here is what happened today.") ∧
    resultKeys (fallbackExtract "Here is what happened today.") =
      ["summary", "action_items", "suggested_messages"] ∧
    (∃ items : List String,
      resultLookup (fallbackExtract "Here is what happened today.")
        "action_items" = some (.jarr (JArr.ofStrings items))) :=
  processWithAI_degrade_path emptyDb emptyPatternsCache 0
    (fun _ => .ok "Here is what happened today.") (fun _ => none)
    "Here is what happened today." rfl rfl

/-! ## Name-extraction properties (claim C7) -/

/-- A name candidate token is longer than one character. -/
theorem isNameCandidate_length (x : String) (h : isNameCandidate x = true) :
    1 < x.length := by
  simp only [isNameCandidate, Bool.and_eq_true, decide_eq_true_eq] at h
  exact h.1.1

/-- A joined run is at least as long as its first token. -/
theorem joinSpace_length_head (t : String) (ts : List String) :
    t.length ≤ (joinSpace (t :: ts)).length := by
  cases ts with
  | nil => simp [joinSpace]
  | cons y ys =>
    have hsp : (" " : String).length = 1 := by decide
    simp [joinSpace, String.length_append, hsp]
    omega

/-- Every name produced by the extraction loop is the space-join of a
non-empty run of candidate tokens. -/
theorem extractLoop_mem_candidate_run (fuel : Nat) (ws : List String)
    (name : String) (h : name ∈ extractLoop fuel ws) :
    ∃ t ts, name = joinSpace (t :: ts) ∧
      ∀ x ∈ t :: ts, isNameCandidate x = true := by
  induction fuel generalizing ws with
  | zero => simp [extractLoop] at h
  | succ fuel ih =>
    cases ws with
    | nil => simp [extractLoop] at h
    | cons w rest =>
      cases hc : isNameCandidate (stripNonWord w) with
      | false =>
        simp only [extractLoop, hc, Bool.false_eq_true, if_false] at h
        exact ih _ h
      | true =>
        simp only [extractLoop, hc, if_true, List.mem_cons] at h
        rcases h with h | h
        · refine ⟨stripNonWord w,
            (rest.takeWhile fun x => isNameCandidate (stripNonWord x)).map
              stripNonWord, h, ?_⟩
          intro x hx
          rcases List.mem_cons.mp hx with rfl | hx
          · exact hc
          · obtain ⟨y, hy, rfl⟩ := List.mem_map.mp hx
            simpa using List.mem_takeWhile_imp hy
        · exact ih _ h

/-- A stand-alone stop-word such as `The` is never among the extracted names:
each extracted name is a join of candidate tokens, every candidate is longer
than one character and is not a stop word, and a multi-token join is at least
five characters long. -/
theorem the_never_extracted (text : String) :
    "The" ∉ extractNamesFromText text := by
  intro h
  obtain ⟨t, ts, heq, hall⟩ := extractLoop_mem_candidate_run _ _ _ h
  cases ts with
  | nil =>
    simp only [joinSpace] at heq
    have hcand := hall t (List.mem_singleton_self t)
    rw [← heq] at hcand
    simp [isNameCandidate, isCommonWord, commonWords] at hcand
  | cons t2 ts2 =>
    have h1 := isNameCandidate_length t (hall t (by simp))
    have h2 := isNameCandidate_length t2 (hall t2 (by simp))
    have hlen2 := joinSpace_length_head t2 ts2
    have hsp : (" " : String).length = 1 := by decide
    have hjoin : (joinSpace (t :: t2 :: ts2)).length =
        t.length + 1 + (joinSpace (t2 :: ts2)).length := by
      simp [joinSpace, String.length_append, hsp]
    have h3 : ("The" : String).length = 3 := by decide
    rw [heq] at h3
    omega

/-- Claim C7 counterexample: the capitalized single-letter token `X` is not in
the stop-word list, yet the extraction rejects it — the code additionally
requires the (punctuation-stripped) token to be longer than one character, so
the claimed candidacy iff fails. -/
theorem extractNames_single_letter_cx :
    extractNamesFromText "X needs an update" = [] ∧
    startsCapital "X" = true ∧
    isCommonWord "X" = false ∧
    isNameCandidate "X" = false := by
  refine ⟨by decide, by decide, by decide, by decide⟩

/-- Claim C7 (amended): `resolve`'s name extraction over the text
`Acme Corp needs an update` yields exactly the merged multi-word candidate
`Acme Corp`, and never yields a stand-alone stop-word such as `The`; in
general a token is a candidate iff its punctuation-stripped form is longer
than one character, starts with a capital letter, and is not in the fixed
stop-word list, and adjacent candidate tokens are merged into one name. -/
theorem extractNames_candidate_rules :
    extractNamesFromText "Acme Corp needs an update" = ["Acme Corp"] ∧
    (∀ text : String, "The" ∉ extractNamesFromText text) ∧
    (∀ w : String, extractLoop 1 [w] =
      if isNameCandidate (stripNonWord w) then [stripNonWord w] else []) ∧
    (∀ w v : String, isNameCandidate (stripNonWord w) = true →
      isNameCandidate (stripNonWord v) = true →
      extractLoop 2 [w, v] = [stripNonWord w ++ " " ++ stripNonWord v]) := by
  refine ⟨by decide, the_never_extracted, ?_, ?_⟩
  · intro w
    cases hc : isNameCandidate (stripNonWord w) <;>
      simp [extractLoop, hc, joinSpace]
  · intro w v hw hv
    simp [extractLoop, hw, hv, joinSpace]

/-- Witness for C7 (amended) at concrete token lists. -/
theorem extractNames_candidate_rules_witness :
    extractNamesFromText "Acme Corp needs an update" = ["Acme Corp"] ∧
    "The" ∉ extractNamesFromText "The Acme deal on Monday" ∧
    extractLoop 1 ["Acme"] = ["Acme"] ∧
    extractLoop 2 ["Acme", "Corp"] = ["Acme Corp"] := by
  obtain ⟨h1, h2, h3, h4⟩ := extractNames_candidate_rules
  refine ⟨h1, h2 "The Acme deal on Monday", ?_, ?_⟩
  · rw [h3 "Acme"]; decide
  · rw [h4 "Acme" "Corp" (by decide) (by decide)]; decide

/-! ## Resolver frame and freshness properties (claims C8, C9) -/

/-- Claim C8: a resolver call on an empty batch, or one from which no candidate
names are extracted, returns the empty bundle and performs no effects at all:
the cache state and the durable store are returned unchanged, and the counters
show zero cache reads, zero store queries and zero store writes. -/
theorem getRelevantClientContext_empty_frame (data : List SourceRecord)
    (cs : ShortTermCache) (db : Db) (now : Timestamp)
    (h : data = [] ∨ extractClientNames data = []) :
    getRelevantClientContext data cs db now = ⟨[], cs, db, 0, 0, 0⟩ := by
  rcases h with h | h
  · subst h; rfl
  · cases data with
    | nil => rfl
    | cons a l =>
      unfold getRelevantClientContext
      simp [h]

/-- Witness for C8 at a record whose text contains no capitalized
candidates. -/
theorem getRelevantClientContext_empty_frame_witness :
    getRelevantClientContext [⟨some "hello world", none, none, none⟩]
      ⟨[], 0, [], 0⟩ emptyDb 5000 = ⟨[], ⟨[], 0, [], 0⟩, emptyDb, 0, 0, 0⟩ :=
  getRelevantClientContext_empty_frame _ _ _ _ (Or.inr (by decide))

/-- A non-empty merge always stamps the pool-wide `lastUpdated` with the merge
time (pruning does not touch the stamp). -/
theorem updateClientCache_lastUpdated (clients : List Client)
    (cs : ShortTermCache) (now : Timestamp) (h : clients ≠ []) :
    (updateClientCache clients cs now).lastUpdated = now := by
  unfold updateClientCache
  rw [if_neg h]
  dsimp only
  split
  · simp [pruneCache]
  · rfl

/-- Claim C9: client-cache freshness is pool-wide, not per entry — a database
merge of at least one client stamps the pool-wide `lastUpdated` with the merge
time, and from then until the TTL elapses a resolver read over any client
resident in the cache (however long ago it was inserted) is served from the
cache: the bundle is the cached entry, and the cache, the store and the
query/write counters show no store traffic. -/
theorem pool_wide_freshness (cs : ShortTermCache) (clients : List Client)
    (t tq : Timestamp) (e : Client) (db : Db) (data : List SourceRecord)
    (hne : clients ≠ [])
    (hfresh : tq - t < CACHE_TTL)
    (hdata : data ≠ [])
    (hnames : extractClientNames data = [e.name])
    (hcached : getCachedClients [e.name] (updateClientCache clients cs t) =
      [e]) :
    (updateClientCache clients cs t).lastUpdated = t ∧
    getRelevantClientContext data (updateClientCache clients cs t) db tq =
      ⟨[e], updateClientCache clients cs t, db, 1, 0, 0⟩ := by
  have hl := updateClientCache_lastUpdated clients cs t hne
  refine ⟨hl, ?_⟩
  cases data with
  | nil => exact absurd rfl hdata
  | cons a l =>
    unfold getRelevantClientContext
    simp [hnames, hcached, hl, hfresh]

/-- Witness for C9: an entry cached at time 0 is served from the cache at time
1299999 because an unrelated merge at time 1000000 refreshed the pool-wide
stamp. -/
theorem pool_wide_freshness_witness :
    (updateClientCache [⟨"b", "Beta", [], some 1000000, none, 1000000⟩]
      ⟨[("a", ⟨"a", "Acme", [], some 0, some 0, 0⟩)], 0, [], 0⟩
      1000000).lastUpdated = 1000000 ∧
    getRelevantClientContext [⟨some "Acme called", none, none, none⟩]
      (updateClientCache [⟨"b", "Beta", [], some 1000000, none, 1000000⟩]
        ⟨[("a", ⟨"a", "Acme", [], some 0, some 0, 0⟩)], 0, [], 0⟩ 1000000)
      emptyDb 1299999 =
      ⟨[⟨"a", "Acme", [], some 0, some 0, 0⟩],
        updateClientCache [⟨"b", "Beta", [], some 1000000, none, 1000000⟩]
          ⟨[("a", ⟨"a", "Acme", [], some 0, some 0, 0⟩)], 0, [], 0⟩ 1000000,
        emptyDb, 1, 0, 0⟩ :=
  pool_wide_freshness ⟨[("a", ⟨"a", "Acme", [], some 0, some 0, 0⟩)], 0, [], 0⟩
    [⟨"b", "Beta", [], some 1000000, none, 1000000⟩] 1000000 1299999
    ⟨"a", "Acme", [], some 0, some 0, 0⟩ emptyDb
    [⟨some "Acme called", none, none, none⟩]
    (by decide) (by decide) (by decide) (by decide) (by decide)

/-! ## Duplicate-name client creation (claim C10) -/

/-- Replacing the entry for a present key makes `mapGet` return the new
value. -/
theorem mapGet_replace (m : JsMap α) (k : String) (v : α)
    (h : m.any (fun p => p.1 = k) = true) :
    mapGet (m.map (fun p => if p.1 = k then (k, v) else p)) k = some v := by
  induction m with
  | nil => simp at h
  | cons p rest ih =>
    by_cases hp : p.1 = k
    · simp [mapGet, List.find?, hp]
    · have h' : rest.any (fun p => p.1 = k) = true := by
        simpa [List.any_cons, hp] using h
      simpa [mapGet, List.find?, hp] using ih h'

/-- Appending a binding for a fresh key makes `mapGet` return it. -/
theorem mapGet_append_new (m : JsMap α) (k : String) (v : α)
    (h : m.any (fun p => p.1 = k) = false) :
    mapGet (m ++ [(k, v)]) k = some v := by
  induction m with
  | nil => simp [mapGet, List.find?]
  | cons p rest ih =>
    have hp : ¬p.1 = k := by
      intro hk
      simp [List.any_cons, hk] at h
    have h' : rest.any (fun p => p.1 = k) = false := by
      simpa [List.any_cons, hp] using h
    simpa [mapGet, List.find?, hp] using ih h'

/-- `Map.set` then `Map.get` on the same key yields the set value. -/
theorem mapGet_mapSet (m : JsMap α) (k : String) (v : α) :
    mapGet (mapSet m k v) k = some v := by
  unfold mapSet
  cases h : m.any (fun p => p.1 = k) with
  | true => simpa [h] using mapGet_replace m k v h
  | false => simpa [h] using mapGet_append_new m k v h

/-- Claim C10: `createClient` on a name that already exists in the durable
store (unique-constraint violation 23505) does not fail: it fetches the
existing row, caches it under its id, and returns it; the store is left
unchanged and the result is not null. -/
theorem createClient_duplicate_name (clientData : ClientData)
    (cs : ShortTermCache) (db : Db) (now : Timestamp) (existing : Client)
    (hname : clientData.name ≠ "")
    (hex : db.clients.filter (fun c => c.name = clientData.name) =
      [existing]) :
    createClient clientData cs db now =
      ⟨some existing,
        { cs with clients := mapSet cs.clients existing.id existing }, db⟩ ∧
    mapGet (createClient clientData cs db now).cache.clients existing.id =
      some existing ∧
    (createClient clientData cs db now).result ≠ none := by
  have hmem : existing ∈ db.clients.filter (fun c => c.name = clientData.name) := by
    rw [hex]; exact List.mem_singleton_self existing
  have hany : db.clients.any (fun c => c.name = clientData.name) = true := by
    rcases List.mem_filter.mp hmem with ⟨hm, hp⟩
    exact List.any_eq_true.mpr ⟨existing, hm, hp⟩
  have heq : createClient clientData cs db now =
      ⟨some existing,
        { cs with clients := mapSet cs.clients existing.id existing }, db⟩ := by
    unfold createClient
    rw [if_neg hname, if_pos hany, hex]
  refine ⟨heq, ?_, ?_⟩
  · rw [heq]
    exact mapGet_mapSet cs.clients existing.id existing
  · rw [heq]
    simp

/-- Witness for C10 at a concrete one-row store. -/
theorem createClient_duplicate_name_witness :
    createClient ⟨"Acme", []⟩ ⟨[], 0, [], 0⟩
      ⟨[], [], [], [], [], [], [⟨"a1", "Acme", [], some 7, some 7, 7⟩], 5⟩ 99 =
      ⟨some ⟨"a1", "Acme", [], some 7, some 7, 7⟩,
        ⟨mapSet [] "a1" ⟨"a1", "Acme", [], some 7, some 7, 7⟩, 0, [], 0⟩,
        ⟨[], [], [], [], [], [], [⟨"a1", "Acme", [], some 7, some 7, 7⟩], 5⟩⟩ ∧
    mapGet (createClient ⟨"Acme", []⟩ ⟨[], 0, [], 0⟩
      ⟨[], [], [], [], [], [], [⟨"a1", "Acme", [], some 7, some 7, 7⟩], 5⟩
      99).cache.clients "a1" = some ⟨"a1", "Acme", [], some 7, some 7, 7⟩ ∧
    (createClient ⟨"Acme", []⟩ ⟨[], 0, [], 0⟩
      ⟨[], [], [], [], [], [], [⟨"a1", "Acme", [], some 7, some 7, 7⟩], 5⟩
      99).result ≠ none :=
  createClient_duplicate_name ⟨"Acme", []⟩ ⟨[], 0, [], 0⟩
    ⟨[], [], [], [], [], [], [⟨"a1", "Acme", [], some 7, some 7, 7⟩], 5⟩ 99
    ⟨"a1", "Acme", [], some 7, some 7, 7⟩ (by decide) (by decide)

/-! ## Eviction properties (claim C5) -/

/-- `insertLe` grows the list by one. -/
theorem length_insertLe (le : α → α → Bool) (x : α) (l : List α) :
    (insertLe le x l).length = l.length + 1 := by
  induction l with
  | nil => rfl
  | cons y ys ih =>
    unfold insertLe
    split
    · rfl
    · simp [ih]

/-- `insertLe` membership. -/
theorem mem_insertLe (le : α → α → Bool) (x a : α) (l : List α) :
    a ∈ insertLe le x l ↔ a = x ∨ a ∈ l := by
  induction l with
  | nil => simp [insertLe]
  | cons y ys ih =>
    unfold insertLe
    split
    · simp [List.mem_cons]
    · simp [List.mem_cons, ih]
      tauto

/-- `sortLe` preserves length. -/
theorem length_sortLe (le : α → α → Bool) (l : List α) :
    (sortLe le l).length = l.length := by
  induction l with
  | nil => rfl
  | cons x xs ih => simp [sortLe, length_insertLe, ih]

/-- `sortLe` preserves membership. -/
theorem mem_sortLe (le : α → α → Bool) (a : α) (l : List α) :
    a ∈ sortLe le l ↔ a ∈ l := by
  induction l with
  | nil => simp [sortLe]
  | cons x xs ih => simp [sortLe, mem_insertLe, ih, List.mem_cons]

/-- The head of a list sorted ascending by a natural key minimizes the key
over the original list. -/
theorem sortLe_head_min (key : α → Nat) (l : List α) (x : α) (t : List α)
    (h : sortLe (fun a b => key a ≤ key b) l = x :: t) (y : α) (hy : y ∈ l) :
    key x ≤ key y := by
  induction l generalizing x t with
  | nil => simp [sortLe] at h
  | cons a l' ih =>
    rw [sortLe] at h
    cases hs : sortLe (fun a b => key a ≤ key b) l' with
    | nil =>
      have hl' : l' = [] := by
        have := length_sortLe (fun a b => key a ≤ key b) l'
        rw [hs] at this
        exact List.eq_nil_of_length_eq_zero this.symm
      subst hl'
      rw [hs] at h
      simp [insertLe] at h
      rcases List.mem_cons.mp hy with rfl | hy'
      · rw [h.1]
      · simp at hy'
    | cons b bs =>
      rw [hs] at h
      rw [insertLe] at h
      by_cases hab : key a ≤ key b
      · rw [if_pos (by simpa using hab)] at h
        have hxa : x = a := (List.cons.injEq .. ▸ h).1.symm
        subst hxa
        rcases List.mem_cons.mp hy with rfl | hy'
        · rfl
        · exact le_trans hab (ih b bs hs hy')
      · rw [if_neg (by simpa using hab)] at h
        have hxb : x = b := (List.cons.injEq .. ▸ h).1.symm
        subst hxb
        rcases List.mem_cons.mp hy with rfl | hy'
        · omega
        · exact ih x bs hs hy'

/-- Deleting the key of a resident entry of a key-nodup map removes exactly
one entry. -/
theorem length_mapDelete_of_nodup (m : JsMap α) (ev : String × α)
    (hnd : (m.map Prod.fst).Nodup) (hmem : ev ∈ m) :
    (mapDelete m ev.1).length = m.length - 1 := by
  induction m with
  | nil => simp at hmem
  | cons p rest ih =>
    have hnd' : (rest.map Prod.fst).Nodup := (List.nodup_cons.mp hnd).2
    have hpnotin : p.1 ∉ rest.map Prod.fst := (List.nodup_cons.mp hnd).1
    rcases List.mem_cons.mp hmem with rfl | hmem'
    · have hall : ∀ q ∈ rest, (decide (q.1 ≠ ev.1)) = true := by
        intro q hq
        simp only [decide_eq_true_eq]
        intro he
        exact hpnotin (List.mem_map.mpr ⟨q, hq, he⟩)
      unfold mapDelete
      rw [List.filter_cons_of_neg (by simp)]
      rw [List.filter_eq_self.mpr hall]
      simp
    · have hpne : ¬p.1 = ev.1 := by
        intro he
        exact hpnotin (he ▸ List.mem_map.mpr ⟨ev, hmem', rfl⟩)
      have hpos : ev ∈ rest := hmem'
      have hlen : 0 < rest.length := List.length_pos.mpr (by
        intro hnil; rw [hnil] at hpos; simp at hpos)
      unfold mapDelete at ih ⊢
      rw [List.filter_cons_of_pos (by simpa using hpne)]
      simp only [List.length_cons]
      rw [ih hnd' hmem']
      omega

/-- Claim C5: inserting one new distinct client into a full (100-entry,
key-nodup) clients pool triggers eviction: exactly 100 entries remain
resident, and the evicted entry is one whose `last_mentioned` (absent values
sorting as the epoch, i.e. oldest) is minimal over the whole pool. -/
theorem cache_eviction_at_capacity (cs : ShortTermCache) (c : Client)
    (now : Timestamp)
    (hnd : (cs.clients.map Prod.fst).Nodup)
    (hlen : cs.clients.length = 100)
    (hid : c.id ≠ "")
    (hnew : cs.clients.any (fun p => p.1 = c.id) = false) :
    ∃ ev : String × Client,
      ev ∈ mapSet cs.clients c.id c ∧
      (∀ p ∈ mapSet cs.clients c.id c,
        clientDateVal ev.2 ≤ clientDateVal p.2) ∧
      (updateClientCache [c] cs now).clients =
        mapDelete (mapSet cs.clients c.id c) ev.1 ∧
      (updateClientCache [c] cs now).clients.length = 100 := by
  have hmval : mapSet cs.clients c.id c = cs.clients ++ [(c.id, c)] := by
    unfold mapSet
    rw [if_neg (by simp [hnew])]
  have hmlen : (mapSet cs.clients c.id c).length = 101 := by
    simp [hmval, hlen]
  have hmnd : ((mapSet cs.clients c.id c).map Prod.fst).Nodup := by
    rw [hmval, List.map_append]
    refine List.Nodup.append hnd (by simp) ?_
    intro a ha hb
    simp at hb
    subst hb
    obtain ⟨p, hp, hpe⟩ := List.mem_map.mp ha
    have : cs.clients.any (fun p => p.1 = c.id) = true :=
      List.any_eq_true.mpr ⟨p, hp, by simp [hpe]⟩
    rw [hnew] at this
    exact Bool.noConfusion this
  obtain ⟨ev, srest, hs⟩ : ∃ ev srest,
      sortLe (fun a b => clientDateVal a.2 ≤ clientDateVal b.2)
        (mapSet cs.clients c.id c) = ev :: srest := by
    cases hsor : sortLe (fun a b => clientDateVal a.2 ≤ clientDateVal b.2)
        (mapSet cs.clients c.id c) with
    | nil =>
      have hl := length_sortLe
        (fun a b => clientDateVal a.2 ≤ clientDateVal b.2)
        (mapSet cs.clients c.id c)
      rw [hsor, hmlen] at hl
      simp at hl
    | cons a b => exact ⟨a, b, rfl⟩
  have hsortlen : (ev :: srest).length = 101 := by
    rw [← hs, length_sortLe, hmlen]
  have hprune : prunePool clientDateVal (mapSet cs.clients c.id c) =
      mapDelete (mapSet cs.clients c.id c) ev.1 := by
    unfold prunePool
    rw [if_pos (by rw [hmlen]; decide)]
    dsimp only
    rw [hs]
    have htake : (ev :: srest).length - MAX_CACHE_SIZE = 1 := by
      rw [hsortlen]; decide
    rw [htake]
    simp [List.take, List.foldl]
  have hclients : (updateClientCache [c] cs now).clients =
      mapDelete (mapSet cs.clients c.id c) ev.1 := by
    unfold updateClientCache
    rw [if_neg (by simp)]
    dsimp only
    rw [List.foldl_cons, List.foldl_nil, if_pos hid]
    have h101 : (mapSet cs.clients c.id c).length > MAX_CACHE_SIZE := by
      rw [hmlen]; decide
    rw [if_pos h101]
    simp only [pruneCache]
    exact hprune
  refine ⟨ev, ?_, ?_, hclients, ?_⟩
  · rw [← mem_sortLe (fun a b => clientDateVal a.2 ≤ clientDateVal b.2), hs]
    simp
  · intro p hp
    exact sortLe_head_min (fun q => clientDateVal q.2) _ ev srest hs p hp
  · rw [hclients,
      length_mapDelete_of_nodup _ ev hmnd
        (by rw [← mem_sortLe (fun a b => clientDateVal a.2 ≤ clientDateVal b.2),
          hs]; simp),
      hmlen]

/-- A concrete full cache for the C5 witness: entries `c0`…`c99` with
increasing `last_mentioned` stamps, so `c0` is the oldest entry. -/
def evictClient (i : Nat) : Client :=
  ⟨"c" ++ toString i, "Client " ++ toString i, [], some (1000 + i), none, 0⟩

/-- The 100-entry clients pool built from `evictClient`. -/
def evictCache : ShortTermCache :=
  ⟨(List.range 100).map (fun i => ("c" ++ toString i, evictClient i)), 0, [], 0⟩

/-- Witness for C5: inserting a 101st distinct client into the concrete full
pool evicts exactly one minimal-stamp entry and leaves 100 resident. -/
theorem cache_eviction_at_capacity_witness :
    ∃ ev : String × Client,
      ev ∈ mapSet evictCache.clients "x" ⟨"x", "Xen", [], some 5000, none, 0⟩ ∧
      (∀ p ∈ mapSet evictCache.clients "x" ⟨"x", "Xen", [], some 5000, none, 0⟩,
        clientDateVal ev.2 ≤ clientDateVal p.2) ∧
      (updateClientCache [⟨"x", "Xen", [], some 5000, none, 0⟩] evictCache
        77).clients =
        mapDelete (mapSet evictCache.clients "x"
          ⟨"x", "Xen", [], some 5000, none, 0⟩) ev.1 ∧
      (updateClientCache [⟨"x", "Xen", [], some 5000, none, 0⟩] evictCache
        77).clients.length = 100 :=
  cache_eviction_at_capacity evictCache ⟨"x", "Xen", [], some 5000, none, 0⟩ 77
    (by decide) (by decide) (by decide) (by decide)

/-! ## Preference-profile cache behaviour (claim C6) -/

/-- After any `getFeedbackPatterns` call the cache holds exactly the returned
aggregate. -/
theorem getFeedbackPatterns_cache_patterns (db : Db) (pc : PatternsCache)
    (t : Timestamp) :
    (getFeedbackPatterns db pc t).cache.patterns =
      some (getFeedbackPatterns db pc t).patterns := by
  unfold getFeedbackPatterns
  cases h : pc.patterns with
  | none => rfl
  | some cached =>
    dsimp only
    split
    · exact h
    · rfl

/-- A call that finds a present, fresh cached aggregate serves it unchanged
and does not recompute. -/
theorem getFeedbackPatterns_cached_hit (db : Db) (q : PatternsCache)
    (p : Patterns) (t : Timestamp) (hq : q.patterns = some p)
    (ht : t - q.lastUpdated < feedbackPatternsTTL) :
    getFeedbackPatterns db q t = ⟨p, q, false⟩ := by
  unfold getFeedbackPatterns
  rw [hq]
  dsimp only
  rw [if_pos ht]

/-- A call that finds the cache invalidated recomputes. -/
theorem getFeedbackPatterns_invalid_recomputes (db : Db) (q : PatternsCache)
    (t : Timestamp) (hq : q.patterns = none) :
    (getFeedbackPatterns db q t).recomputed = true := by
  unfold getFeedbackPatterns
  rw [hq]

/-- A successful `storeFeedback` always nulls the cached aggregate. -/
theorem storeFeedback_invalidates (sid rating comment : String)
    (uid : Option String) (t : Timestamp) (db : Db) (q : PatternsCache)
    (hsid : sid ≠ "") :
    (storeFeedback (some sid) rating comment uid t db q).cache.patterns =
      none := by
  unfold storeFeedback
  rw [if_neg (by simp [jsFalsyStr, hsid])]

/-- Claim C6: two `getFeedbackPatterns` calls within the TTL window with no
intervening feedback write return the identical cached structure without a
second recompute (the second call returns the first call's aggregate and
leaves the cache untouched); a `storeFeedback` call in between nulls the
cached aggregate, so a third call recomputes. -/
theorem preference_profile_cache (db : Db) (pc : PatternsCache)
    (t1 t2 t3 t4 : Timestamp) (sid rating comment : String)
    (uid : Option String)
    (hfresh : t2 - (getFeedbackPatterns db pc t1).cache.lastUpdated <
      feedbackPatternsTTL)
    (hsid : sid ≠ "") :
    (getFeedbackPatterns db (getFeedbackPatterns db pc t1).cache t2).patterns =
      (getFeedbackPatterns db pc t1).patterns ∧
    (getFeedbackPatterns db (getFeedbackPatterns db pc t1).cache t2).cache =
      (getFeedbackPatterns db pc t1).cache ∧
    (getFeedbackPatterns db (getFeedbackPatterns db pc t1).cache t2).recomputed
      = false ∧
    (storeFeedback (some sid) rating comment uid t3 db
      (getFeedbackPatterns db pc t1).cache).cache.patterns = none ∧
    (getFeedbackPatterns
        (storeFeedback (some sid) rating comment uid t3 db
          (getFeedbackPatterns db pc t1).cache).db
        (storeFeedback (some sid) rating comment uid t3 db
          (getFeedbackPatterns db pc t1).cache).cache t4).recomputed = true := by
  have hcp := getFeedbackPatterns_cache_patterns db pc t1
  have h2 := getFeedbackPatterns_cached_hit db
    (getFeedbackPatterns db pc t1).cache (getFeedbackPatterns db pc t1).patterns
    t2 hcp hfresh
  have h4 := storeFeedback_invalidates sid rating comment uid t3 db
    (getFeedbackPatterns db pc t1).cache hsid
  have h5 := getFeedbackPatterns_invalid_recomputes
    (storeFeedback (some sid) rating comment uid t3 db
      (getFeedbackPatterns db pc t1).cache).db
    (storeFeedback (some sid) rating comment uid t3 db
      (getFeedbackPatterns db pc t1).cache).cache t4 h4
  exact ⟨by rw [h2], by rw [h2], by rw [h2], h4, h5⟩

/-- Witness for C6 at concrete times and an empty store. -/
theorem preference_profile_cache_witness :
    (getFeedbackPatterns emptyDb
      (getFeedbackPatterns emptyDb emptyPatternsCache 1000).cache 1500).patterns
      = (getFeedbackPatterns emptyDb emptyPatternsCache 1000).patterns ∧
    (getFeedbackPatterns emptyDb
      (getFeedbackPatterns emptyDb emptyPatternsCache 1000).cache 1500).cache
      = (getFeedbackPatterns emptyDb emptyPatternsCache 1000).cache ∧
    (getFeedbackPatterns emptyDb
      (getFeedbackPatterns emptyDb emptyPatternsCache 1000).cache
      1500).recomputed = false ∧
    (storeFeedback (some "s1") "approved" "" none 2000 emptyDb
      (getFeedbackPatterns emptyDb emptyPatternsCache 1000).cache).cache.patterns
      = none ∧
    (getFeedbackPatterns
        (storeFeedback (some "s1") "approved" "" none 2000 emptyDb
          (getFeedbackPatterns emptyDb emptyPatternsCache 1000).cache).db
        (storeFeedback (some "s1") "approved" "" none 2000 emptyDb
          (getFeedbackPatterns emptyDb emptyPatternsCache 1000).cache).cache
        2500).recomputed = true :=
  preference_profile_cache emptyDb emptyPatternsCache 1000 1500 2000 2500
    "s1" "approved" "" none (by decide) (by decide)

end StealthOps
